import Mathlib

/-
Verification of the patient-record access-control and anonymization core
(app/services/patient_service.py) against its natural-language specification.

The service layer is embedded shallowly: the SQLite patients and logs tables
become lists of rows inside a `DB` state, each service function becomes a
Lean function from the old state to a result paired with the new state, and
Python exceptions become an explicit error type. Python's process-level
`hash` and the optional Fernet codec are parameters of an `Env` record,
since both are external to the service code itself.
-/

namespace Hospital

/-- Errors raised by the service layer: `PermissionError` from the role
check, `ValueError` from `list_patients` view validation, and `KeyError`
from a dict lookup such as `acted_by["user_id"]` on a missing key. -/
inductive Err where
  | permissionError (msg : String)
  | valueError (msg : String)
  | keyError
deriving DecidableEq

deriving instance DecidableEq for Except

/-- A session identity dict `{user_id, role}` as consumed by the service;
either key may be absent, which `dict.get` surfaces as `None`. -/
structure Identity where
  user_id : Option Int
  role : Option String
deriving DecidableEq

/-- A row of the `logs` table as written by `log_action`. -/
structure LogEntry where
  user_id : Int
  role : String
  action : String
  details : String
deriving DecidableEq

/-- A row of the `patients` table. `diagnosis` holds the stored form
(possibly encrypted); timestamps are modelled as naturals. -/
structure PatientRow where
  patient_id : Nat
  name : String
  contact : String
  diagnosis : String
  anonymized_name : String
  anonymized_contact : String
  diagnosis_masked : String
  date_added : Nat
  last_updated : Nat
deriving DecidableEq

/-- The database state: the patients table in insertion order, the next
autoincrement id, the logs table, and the store clock used for
CURRENT_TIMESTAMP. -/
structure DB where
  patients : List PatientRow
  next_id : Nat
  logs : List LogEntry
  now : Nat
deriving DecidableEq

/-- The external Fernet object: an encrypt and a decrypt map. The library
guarantee that decrypt inverts encrypt is stated as a hypothesis where a
theorem needs it, never assumed globally. -/
structure FernetBox where
  enc : String → String
  dec : String → String

/-- Process environment of the module: Python's builtin string `hash`
(an arbitrary Int-valued function, fixed for the process) and the module
global `FERNET`, which is `none` when no key is configured, the key is
invalid, or the library is missing. -/
structure Env where
  hash : String → Int
  fernet : Option FernetBox

def RAW_VIEW_ROLES : List String := ["admin", "receptionist"]

def ANON_VIEW_ROLES : List String := ["admin", "doctor"]

def WRITE_ROLES : List String := ["admin", "receptionist"]

def DELETE_ROLES : List String := ["admin"]

/-- Python `"%0*d"` formatting of a nonnegative integer: left-pad the
decimal digits with zeros up to the width. -/
def zfill (w : Nat) (s : String) : String :=
  String.mk (List.replicate (w - s.length) '0') ++ s

/-- Embeds `mask_name`: `"ANON_%04d" % (abs(hash(name)) % 10000)`. -/
def mask_name (h : String → Int) (name : String) : String :=
  "ANON_" ++ zfill 4 (toString ((h name).natAbs % 10000))

/-- Embeds `mask_contact`: keep the digit characters, take the last four,
fall back to "0000" when the result is empty. -/
def mask_contact (contact : String) : String :=
  let digits := contact.toList.filter Char.isDigit
  let last_four := String.mk (digits.drop (digits.length - 4))
  "XXX-XXX-" ++ (if last_four = "" then "0000" else last_four)

/-- Embeds `mask_diagnosis`: `"MASKED_%06d" % (abs(hash(diagnosis)) % 1000000)`. -/
def mask_diagnosis (h : String → Int) (diagnosis : String) : String :=
  "MASKED_" ++ zfill 6 (toString ((h diagnosis).natAbs % 1000000))

/-- Embeds `encrypt_sensitive`: apply the Fernet object when configured,
otherwise the identity. -/
def encrypt_sensitive (env : Env) (value : String) : String :=
  match env.fernet with
  | some f => f.enc value
  | none => value

/-- Embeds `decrypt_sensitive`: apply the Fernet object when configured,
otherwise the identity. -/
def decrypt_sensitive (env : Env) (value : String) : String :=
  match env.fernet with
  | some f => f.dec value
  | none => value

/-- Embeds `_log_security_event`: the entry is written only when a caller
dict is present and carries a non-None `user_id`; the role defaults to
"unknown". Returns the list of appended log rows. -/
def log_security_event (action : String) (acted_by : Option Identity)
    (details : String) : List LogEntry :=
  match acted_by with
  | some i =>
    match i.user_id with
    | some uid => [⟨uid, i.role.getD "unknown", action, details⟩]
    | none => []
  | none => []

/-- The role-check condition of `_require_role`: the caller dict exists and
its `role` entry is one of the allowed roles. -/
def hasAllowedRole (acted_by : Option Identity) (allowed_roles : List String) : Bool :=
  match acted_by with
  | some i =>
    match i.role with
    | some r => allowed_roles.contains r
    | none => false
  | none => false

/-- Embeds `_require_role`: on denial, log one `unauthorized_access` event
(when the caller is identifiable) and raise `PermissionError`. Returns the
check outcome together with the appended log rows. -/
def require_role (acted_by : Option Identity) (allowed_roles : List String)
    (action : String) : Except Err Unit × List LogEntry :=
  if hasAllowedRole acted_by allowed_roles then
    (.ok (), [])
  else
    (.error (.permissionError ("Role not permitted to " ++ action ++ ".")),
     log_security_event "unauthorized_access" acted_by (action ++ " not permitted"))

/-- Embeds `_format_patient_row`: a fetched row with the diagnosis column
decrypted. -/
def format_patient_row (env : Env) (row : PatientRow) : PatientRow :=
  { row with diagnosis := decrypt_sensitive env row.diagnosis }

/-- The `ORDER BY date_added DESC` comparison of the list query. -/
def by_date_desc (a b : PatientRow) : Bool :=
  b.date_added ≤ a.date_added

/-- The full-table scan `SELECT ... FROM patients ORDER BY date_added DESC`. -/
def scan_patients (db : DB) : List PatientRow :=
  db.patients.mergeSort by_date_desc

/-- The projection returned by the anonymized view of `list_patients`:
exactly the five keys of the dict built there, and no raw field. -/
structure AnonView where
  patient_id : Nat
  anonymized_name : String
  anonymized_contact : String
  diagnosis_masked : String
  date_added : Nat
deriving DecidableEq

def to_anon_view (r : PatientRow) : AnonView :=
  ⟨r.patient_id, r.anonymized_name, r.anonymized_contact, r.diagnosis_masked,
   r.date_added⟩

/-- The two shapes `list_patients` can return: full rows for the raw view,
five-field projections for the anonymized view. -/
inductive ListResult where
  | raw (rows : List PatientRow)
  | anon (rows : List AnonView)
deriving DecidableEq

/-- Embeds `list_patients`: validate the view string, run the role check
for the requested view, then scan, decrypt and, for the anonymized view,
project. -/
def list_patients (env : Env) (view : String) (requested_by : Option Identity)
    (db : DB) : Except Err ListResult × DB :=
  if view ≠ "raw" ∧ view ≠ "anonymized" then
    (.error (.valueError "view must be either raw or anonymized"), db)
  else
    let check :=
      if view = "raw" then
        require_role requested_by RAW_VIEW_ROLES "view raw patients"
      else
        require_role requested_by ANON_VIEW_ROLES "view anonymized patients"
    match check with
    | (.error e, newlogs) => (.error e, { db with logs := db.logs ++ newlogs })
    | (.ok _, _) =>
      let records := (scan_patients db).map (format_patient_row env)
      if view = "anonymized" then
        (.ok (.anon (records.map to_anon_view)), db)
      else
        (.ok (.raw records), db)

/-- Embeds `get_patient`: select by id, decrypt the diagnosis, `none` when
the id is absent. No role check (internal helper per the source). -/
def get_patient (env : Env) (patient_id : Nat) (db : DB) : Option PatientRow :=
  match db.patients.find? (fun r => r.patient_id == patient_id) with
  | some row => some (format_patient_row env row)
  | none => none

/-- The dict returned by `_anonymized_fields`. -/
structure AnonFields where
  anonymized_name : String
  anonymized_contact : String
  diagnosis_masked : String
deriving DecidableEq

/-- Embeds `_anonymized_fields`. -/
def anonymized_fields (env : Env) (name contact diagnosis : String) : AnonFields :=
  ⟨mask_name env.hash name, mask_contact contact, mask_diagnosis env.hash diagnosis⟩

/-- The dict lookups `acted_by["user_id"]` and `acted_by["role"]` performed
by the success-path `log_action` calls; a missing key raises `KeyError`. -/
def log_action_from (acted_by : Identity) (action details : String) :
    Except Err LogEntry :=
  match acted_by.user_id, acted_by.role with
  | some uid, some r => .ok ⟨uid, r, action, details⟩
  | _, _ => .error .keyError

/-- Embeds `create_patient`: role check, derive masked fields, encrypt the
diagnosis, insert with the next autoincrement id, then log `create_patient`. -/
def create_patient (env : Env) (name contact diagnosis : String)
    (acted_by : Option Identity) (db : DB) : Except Err Nat × DB :=
  match require_role acted_by WRITE_ROLES "create patients" with
  | (.error e, newlogs) => (.error e, { db with logs := db.logs ++ newlogs })
  | (.ok _, _) =>
    let fields := anonymized_fields env name contact diagnosis
    let encrypted_diagnosis := encrypt_sensitive env diagnosis
    let pid := db.next_id
    let row : PatientRow :=
      ⟨pid, name, contact, encrypted_diagnosis, fields.anonymized_name,
       fields.anonymized_contact, fields.diagnosis_masked, db.now, db.now⟩
    let db1 : DB :=
      { db with patients := db.patients ++ [row], next_id := db.next_id + 1,
                now := db.now + 1 }
    match acted_by with
    | some i =>
      match log_action_from i "create_patient" ("patient_id=" ++ toString pid) with
      | .ok entry => (.ok pid, { db1 with logs := db1.logs ++ [entry] })
      | .error e => (.error e, db1)
    | none => (.error .keyError, db1)

/-- The SQL UPDATE of `update_patient` applied to one row: rows with a
different id are untouched; matching rows take the new raw and derived
values and a fresh `last_updated`. -/
def update_row (patient_id : Nat) (name contact encrypted_diagnosis : String)
    (fields : AnonFields) (now : Nat) (r : PatientRow) : PatientRow :=
  if r.patient_id == patient_id then
    { r with name := name, contact := contact, diagnosis := encrypted_diagnosis,
             anonymized_name := fields.anonymized_name,
             anonymized_contact := fields.anonymized_contact,
             diagnosis_masked := fields.diagnosis_masked,
             last_updated := now }
  else r

/-- Embeds `update_patient`: role check, recompute derived fields from the
new raw values, re-encrypt, UPDATE by id (zero rows affected when the id is
absent), then log `update_patient`. -/
def update_patient (env : Env) (patient_id : Nat) (name contact diagnosis : String)
    (acted_by : Option Identity) (db : DB) : Except Err Unit × DB :=
  match require_role acted_by WRITE_ROLES "update patients" with
  | (.error e, newlogs) => (.error e, { db with logs := db.logs ++ newlogs })
  | (.ok _, _) =>
    let fields := anonymized_fields env name contact diagnosis
    let encrypted_diagnosis := encrypt_sensitive env diagnosis
    let db1 : DB :=
      { db with
          patients := db.patients.map
            (update_row patient_id name contact encrypted_diagnosis fields db.now),
          now := db.now + 1 }
    match acted_by with
    | some i =>
      match log_action_from i "update_patient" ("patient_id=" ++ toString patient_id) with
      | .ok entry => (.ok (), { db1 with logs := db1.logs ++ [entry] })
      | .error e => (.error e, db1)
    | none => (.error .keyError, db1)

/-- Embeds `delete_patient`: role check, DELETE by id (removes nothing when
the id is absent), then log `delete_patient`. -/
def delete_patient (patient_id : Nat) (acted_by : Option Identity)
    (db : DB) : Except Err Unit × DB :=
  match require_role acted_by DELETE_ROLES "delete patients" with
  | (.error e, newlogs) => (.error e, { db with logs := db.logs ++ newlogs })
  | (.ok _, _) =>
    let db1 : DB :=
      { db with patients := db.patients.filter (fun r => !(r.patient_id == patient_id)),
                now := db.now + 1 }
    match acted_by with
    | some i =>
      match log_action_from i "delete_patient" ("patient_id=" ++ toString patient_id) with
      | .ok entry => (.ok (), { db1 with logs := db1.logs ++ [entry] })
      | .error e => (.error e, db1)
    | none => (.error .keyError, db1)

/-- One iteration of the sweep loop of `refresh_anonymized_fields`: decrypt
the stored diagnosis, recompute the three derived fields, refresh
`last_updated`; raw columns and the id are not in the SET list. -/
def refresh_row (env : Env) (now : Nat) (r : PatientRow) : PatientRow :=
  let diagnosis_plain := decrypt_sensitive env r.diagnosis
  let nf := anonymized_fields env r.name r.contact diagnosis_plain
  { r with anonymized_name := nf.anonymized_name,
           anonymized_contact := nf.anonymized_contact,
           diagnosis_masked := nf.diagnosis_masked,
           last_updated := now }

/-- Embeds `refresh_anonymized_fields`: admin-only sweep over every row,
then a single `refresh_anonymization` log entry for the whole sweep. -/
def refresh_anonymized_fields (env : Env) (acted_by : Option Identity)
    (db : DB) : Except Err Unit × DB :=
  match require_role acted_by ["admin"] "refresh anonymized data" with
  | (.error e, newlogs) => (.error e, { db with logs := db.logs ++ newlogs })
  | (.ok _, _) =>
    let db1 : DB :=
      { db with patients := db.patients.map (refresh_row env db.now),
                now := db.now + 1 }
    match acted_by with
    | some i =>
      match log_action_from i "refresh_anonymization"
          "Recomputed anonymized fields for all patients" with
      | .ok entry => (.ok (), { db1 with logs := db1.logs ++ [entry] })
      | .error e => (.error e, db1)
    | none => (.error .keyError, db1)

/-- The role carried by an optional caller dict, when any. -/
def roleOf (acted_by : Option Identity) : Option String :=
  match acted_by with
  | some i => i.role
  | none => none

/-- A service call was rejected by the role check: its result is the
`PermissionError` raised by `_require_role`. -/
def denied {α : Type} (p : Except Err α × DB) : Prop :=
  ∃ msg, p.1 = Except.error (Err.permissionError msg)

/-- The `PermissionError` value `_require_role` raises for an action. -/
def perm_denial (action : String) : Err :=
  .permissionError ("Role not permitted to " ++ action ++ ".")

/-- The audit rows `_require_role` appends on a denial for an action. -/
def denial_events (acted_by : Option Identity) (action : String) : List LogEntry :=
  log_security_event "unauthorized_access" acted_by (action ++ " not permitted")

/-- Fixture: environment with no Fernet key configured. -/
def env0 : Env := ⟨fun _ => 0, none⟩

/-- Fixture: a concrete invertible codec standing in for a configured
Fernet object (prepends a marker character; decrypt drops it). -/
def consFernet : FernetBox :=
  ⟨fun s => String.mk ('k' :: s.data), fun s => String.mk s.data.tail⟩

/-- Fixture: environment with a configured codec. -/
def env1 : Env := ⟨fun _ => 0, some consFernet⟩

/-- Fixture identities for the three seeded roles and the empty database. -/
def adm0 : Identity := ⟨some 1, some "admin"⟩

def doc0 : Identity := ⟨some 2, some "doctor"⟩

def rec0 : Identity := ⟨some 3, some "receptionist"⟩

def db0 : DB := ⟨[], 1, [], 0⟩

/-- Fixture: the database after one admin `create_patient` call. -/
def db1 : DB := (create_patient env0 "Jane Doe" "555-0100" "flu" (some adm0) db0).2

theorem hasAllowedRole_iff (a : Option Identity) (allowed : List String) :
    hasAllowedRole a allowed = true ↔ ∃ r, roleOf a = some r ∧ r ∈ allowed := by
  cases a with
  | none => simp [hasAllowedRole, roleOf]
  | some i =>
    cases h : i.role with
    | none => simp [hasAllowedRole, roleOf, h]
    | some r => simp [hasAllowedRole, roleOf, h]

theorem require_role_pos {a : Option Identity} {allowed : List String} (s : String)
    (h : hasAllowedRole a allowed = true) :
    require_role a allowed s = (.ok (), []) := by
  simp [require_role, h]

theorem require_role_neg {a : Option Identity} {allowed : List String} (s : String)
    (h : hasAllowedRole a allowed = false) :
    require_role a allowed s = (.error (perm_denial s), denial_events a s) := by
  simp [require_role, h, perm_denial, denial_events]

theorem log_security_event_with_uid {i : Identity} {uid : Int}
    (hu : i.user_id = some uid) (action details : String) :
    log_security_event action (some i) details =
      [⟨uid, i.role.getD "unknown", action, details⟩] := by
  simp [log_security_event, hu]

theorem log_security_event_no_identity (action details : String) :
    log_security_event action none details = [] := rfl

theorem log_security_event_no_uid {i : Identity} (hu : i.user_id = none)
    (action details : String) :
    log_security_event action (some i) details = [] := by
  simp [log_security_event, hu]

theorem create_patient_denied {env : Env} {a : Option Identity} {db : DB}
    {n c d : String} (h : hasAllowedRole a WRITE_ROLES = false) :
    create_patient env n c d a db =
      (.error (perm_denial "create patients"),
       { db with logs := db.logs ++ denial_events a "create patients" }) := by
  simp [create_patient, require_role_neg _ h]

theorem create_patient_ok {env : Env} {db : DB} {n c d : String}
    (i : Identity) (uid : Int) (r : String)
    (h : hasAllowedRole (some i) WRITE_ROLES = true)
    (hu : i.user_id = some uid) (hr : i.role = some r) :
    create_patient env n c d (some i) db =
      (.ok db.next_id,
       ⟨db.patients ++ [⟨db.next_id, n, c, encrypt_sensitive env d,
          mask_name env.hash n, mask_contact c, mask_diagnosis env.hash d,
          db.now, db.now⟩],
        db.next_id + 1,
        db.logs ++ [⟨uid, r, "create_patient", "patient_id=" ++ toString db.next_id⟩],
        db.now + 1⟩) := by
  simp [create_patient, require_role_pos _ h, log_action_from, hu, hr, anonymized_fields]

theorem update_patient_denied {env : Env} {a : Option Identity} {db : DB}
    {pid : Nat} {n c d : String} (h : hasAllowedRole a WRITE_ROLES = false) :
    update_patient env pid n c d a db =
      (.error (perm_denial "update patients"),
       { db with logs := db.logs ++ denial_events a "update patients" }) := by
  simp [update_patient, require_role_neg _ h]

theorem update_patient_ok {env : Env} {db : DB} {pid : Nat} {n c d : String}
    (i : Identity) (uid : Int) (r : String)
    (h : hasAllowedRole (some i) WRITE_ROLES = true)
    (hu : i.user_id = some uid) (hr : i.role = some r) :
    update_patient env pid n c d (some i) db =
      (.ok (),
       ⟨db.patients.map
          (update_row pid n c (encrypt_sensitive env d)
            (anonymized_fields env n c d) db.now),
        db.next_id,
        db.logs ++ [⟨uid, r, "update_patient", "patient_id=" ++ toString pid⟩],
        db.now + 1⟩) := by
  simp [update_patient, require_role_pos _ h, log_action_from, hu, hr]

theorem delete_patient_denied {a : Option Identity} {db : DB} {pid : Nat}
    (h : hasAllowedRole a DELETE_ROLES = false) :
    delete_patient pid a db =
      (.error (perm_denial "delete patients"),
       { db with logs := db.logs ++ denial_events a "delete patients" }) := by
  simp [delete_patient, require_role_neg _ h]

theorem delete_patient_ok {db : DB} {pid : Nat}
    (i : Identity) (uid : Int) (r : String)
    (h : hasAllowedRole (some i) DELETE_ROLES = true)
    (hu : i.user_id = some uid) (hr : i.role = some r) :
    delete_patient pid (some i) db =
      (.ok (),
       ⟨db.patients.filter (fun row => !(row.patient_id == pid)),
        db.next_id,
        db.logs ++ [⟨uid, r, "delete_patient", "patient_id=" ++ toString pid⟩],
        db.now + 1⟩) := by
  simp [delete_patient, require_role_pos _ h, log_action_from, hu, hr]

theorem refresh_denied {env : Env} {a : Option Identity} {db : DB}
    (h : hasAllowedRole a ["admin"] = false) :
    refresh_anonymized_fields env a db =
      (.error (perm_denial "refresh anonymized data"),
       { db with logs := db.logs ++ denial_events a "refresh anonymized data" }) := by
  simp [refresh_anonymized_fields, require_role_neg _ h]

theorem refresh_ok {env : Env} {db : DB} (i : Identity) (uid : Int) (r : String)
    (h : hasAllowedRole (some i) ["admin"] = true)
    (hu : i.user_id = some uid) (hr : i.role = some r) :
    refresh_anonymized_fields env (some i) db =
      (.ok (),
       ⟨db.patients.map (refresh_row env db.now),
        db.next_id,
        db.logs ++ [⟨uid, r, "refresh_anonymization",
          "Recomputed anonymized fields for all patients"⟩],
        db.now + 1⟩) := by
  simp [refresh_anonymized_fields, require_role_pos _ h, log_action_from, hu, hr]

theorem list_patients_raw_denied {env : Env} {a : Option Identity} {db : DB}
    (h : hasAllowedRole a RAW_VIEW_ROLES = false) :
    list_patients env "raw" a db =
      (.error (perm_denial "view raw patients"),
       { db with logs := db.logs ++ denial_events a "view raw patients" }) := by
  have hv : ¬(("raw" : String) ≠ "raw" ∧ ("raw" : String) ≠ "anonymized") := by decide
  simp [list_patients, hv, require_role_neg _ h]

theorem list_patients_raw_ok {env : Env} {a : Option Identity} {db : DB}
    (h : hasAllowedRole a RAW_VIEW_ROLES = true) :
    list_patients env "raw" a db =
      (.ok (.raw ((scan_patients db).map (format_patient_row env))), db) := by
  have hv : ¬(("raw" : String) ≠ "raw" ∧ ("raw" : String) ≠ "anonymized") := by decide
  simp [list_patients, hv, require_role_pos _ h]

theorem list_patients_anon_denied {env : Env} {a : Option Identity} {db : DB}
    (h : hasAllowedRole a ANON_VIEW_ROLES = false) :
    list_patients env "anonymized" a db =
      (.error (perm_denial "view anonymized patients"),
       { db with logs := db.logs ++ denial_events a "view anonymized patients" }) := by
  have hv : ¬(("anonymized" : String) ≠ "raw" ∧ ("anonymized" : String) ≠ "anonymized") := by
    decide
  have hr : (("anonymized" : String) = "raw") = False := by decide
  simp [list_patients, hv, hr, require_role_neg _ h]

theorem list_patients_anon_ok {env : Env} {a : Option Identity} {db : DB}
    (h : hasAllowedRole a ANON_VIEW_ROLES = true) :
    list_patients env "anonymized" a db =
      (.ok (.anon (((scan_patients db).map (format_patient_row env)).map to_anon_view)),
       db) := by
  have hv : ¬(("anonymized" : String) ≠ "raw" ∧ ("anonymized" : String) ≠ "anonymized") := by
    decide
  have hr : (("anonymized" : String) = "raw") = False := by decide
  simp [list_patients, hv, hr, require_role_pos _ h]

theorem hasAllowedRole_elim {a : Option Identity} {allowed : List String}
    (h : hasAllowedRole a allowed = true) :
    ∃ i r, a = some i ∧ i.role = some r ∧ r ∈ allowed := by
  cases a with
  | none => simp [hasAllowedRole] at h
  | some i =>
    cases hr : i.role with
    | none => simp [hasAllowedRole, hr] at h
    | some r => exact ⟨i, r, rfl, hr, by simpa [hasAllowedRole, hr] using h⟩

theorem create_patient_not_denied {env : Env} {a : Option Identity} {db : DB}
    {n c d : String} (h : hasAllowedRole a WRITE_ROLES = true) :
    ¬ denied (create_patient env n c d a db) := by
  obtain ⟨i, r, rfl, hr, hmem⟩ := hasAllowedRole_elim h
  cases hu : i.user_id with
  | some uid =>
    rw [create_patient_ok i uid r h hu hr]
    simp [denied]
  | none =>
    simp [denied, create_patient, require_role_pos _ h, log_action_from, hu]

theorem update_patient_not_denied {env : Env} {a : Option Identity} {db : DB}
    {pid : Nat} {n c d : String} (h : hasAllowedRole a WRITE_ROLES = true) :
    ¬ denied (update_patient env pid n c d a db) := by
  obtain ⟨i, r, rfl, hr, hmem⟩ := hasAllowedRole_elim h
  cases hu : i.user_id with
  | some uid =>
    rw [update_patient_ok i uid r h hu hr]
    simp [denied]
  | none =>
    simp [denied, update_patient, require_role_pos _ h, log_action_from, hu]

theorem delete_patient_not_denied {a : Option Identity} {db : DB} {pid : Nat}
    (h : hasAllowedRole a DELETE_ROLES = true) :
    ¬ denied (delete_patient pid a db) := by
  obtain ⟨i, r, rfl, hr, hmem⟩ := hasAllowedRole_elim h
  cases hu : i.user_id with
  | some uid =>
    rw [delete_patient_ok i uid r h hu hr]
    simp [denied]
  | none =>
    simp [denied, delete_patient, require_role_pos _ h, log_action_from, hu]

theorem refresh_not_denied {env : Env} {a : Option Identity} {db : DB}
    (h : hasAllowedRole a ["admin"] = true) :
    ¬ denied (refresh_anonymized_fields env a db) := by
  obtain ⟨i, r, rfl, hr, hmem⟩ := hasAllowedRole_elim h
  cases hu : i.user_id with
  | some uid =>
    rw [refresh_ok i uid r h hu hr]
    simp [denied]
  | none =>
    simp [denied, refresh_anonymized_fields, require_role_pos _ h, log_action_from, hu]


/-- C1: for every caller identity and every patient-record operation, the
role check admits the call iff the caller's role lies in the fixed policy
table's allowed-role set for that operation; otherwise the call fails with
the PermissionError of the role check and the patients table is untouched.
The final conjunct pins the module's role-set constants to the table. -/
theorem authorize_admits_iff_role_allowed (env : Env) (a : Option Identity)
    (db : DB) (n c d : String) (pid : Nat) :
    ((¬ denied (list_patients env "raw" a db) ↔
        (∃ r, roleOf a = some r ∧ r ∈ RAW_VIEW_ROLES)) ∧
      (denied (list_patients env "raw" a db) →
        (list_patients env "raw" a db).1 = .error (perm_denial "view raw patients") ∧
        (list_patients env "raw" a db).2.patients = db.patients)) ∧
    ((¬ denied (list_patients env "anonymized" a db) ↔
        (∃ r, roleOf a = some r ∧ r ∈ ANON_VIEW_ROLES)) ∧
      (denied (list_patients env "anonymized" a db) →
        (list_patients env "anonymized" a db).1 =
          .error (perm_denial "view anonymized patients") ∧
        (list_patients env "anonymized" a db).2.patients = db.patients)) ∧
    ((¬ denied (create_patient env n c d a db) ↔
        (∃ r, roleOf a = some r ∧ r ∈ WRITE_ROLES)) ∧
      (denied (create_patient env n c d a db) →
        (create_patient env n c d a db).1 = .error (perm_denial "create patients") ∧
        (create_patient env n c d a db).2.patients = db.patients)) ∧
    ((¬ denied (update_patient env pid n c d a db) ↔
        (∃ r, roleOf a = some r ∧ r ∈ WRITE_ROLES)) ∧
      (denied (update_patient env pid n c d a db) →
        (update_patient env pid n c d a db).1 = .error (perm_denial "update patients") ∧
        (update_patient env pid n c d a db).2.patients = db.patients)) ∧
    ((¬ denied (delete_patient pid a db) ↔
        (∃ r, roleOf a = some r ∧ r ∈ DELETE_ROLES)) ∧
      (denied (delete_patient pid a db) →
        (delete_patient pid a db).1 = .error (perm_denial "delete patients") ∧
        (delete_patient pid a db).2.patients = db.patients)) ∧
    ((¬ denied (refresh_anonymized_fields env a db) ↔
        (∃ r, roleOf a = some r ∧ r ∈ ["admin"])) ∧
      (denied (refresh_anonymized_fields env a db) →
        (refresh_anonymized_fields env a db).1 =
          .error (perm_denial "refresh anonymized data") ∧
        (refresh_anonymized_fields env a db).2.patients = db.patients)) ∧
    (RAW_VIEW_ROLES = ["admin", "receptionist"] ∧
     ANON_VIEW_ROLES = ["admin", "doctor"] ∧
     WRITE_ROLES = ["admin", "receptionist"] ∧
     DELETE_ROLES = ["admin"]) := by
  refine ⟨⟨?_, ?_⟩, ⟨?_, ?_⟩, ⟨?_, ?_⟩, ⟨?_, ?_⟩, ⟨?_, ?_⟩, ⟨?_, ?_⟩,
    rfl, rfl, rfl, rfl⟩
  · rw [← hasAllowedRole_iff]
    cases hA : hasAllowedRole a RAW_VIEW_ROLES
    · rw [list_patients_raw_denied hA]; simp [denied]; exact ⟨_, rfl⟩
    · simp [denied, list_patients_raw_ok hA]
  · intro hd
    cases hA : hasAllowedRole a RAW_VIEW_ROLES
    · rw [list_patients_raw_denied hA]; exact ⟨rfl, rfl⟩
    · exact absurd hd (by simp [denied, list_patients_raw_ok hA])
  · rw [← hasAllowedRole_iff]
    cases hA : hasAllowedRole a ANON_VIEW_ROLES
    · rw [list_patients_anon_denied hA]; simp [denied]; exact ⟨_, rfl⟩
    · simp [denied, list_patients_anon_ok hA]
  · intro hd
    cases hA : hasAllowedRole a ANON_VIEW_ROLES
    · rw [list_patients_anon_denied hA]; exact ⟨rfl, rfl⟩
    · exact absurd hd (by simp [denied, list_patients_anon_ok hA])
  · rw [← hasAllowedRole_iff]
    cases hA : hasAllowedRole a WRITE_ROLES
    · rw [create_patient_denied hA]; simp [denied]; exact ⟨_, rfl⟩
    · simp [create_patient_not_denied hA, hA]
  · intro hd
    cases hA : hasAllowedRole a WRITE_ROLES
    · rw [create_patient_denied hA]; exact ⟨rfl, rfl⟩
    · exact absurd hd (create_patient_not_denied hA)
  · rw [← hasAllowedRole_iff]
    cases hA : hasAllowedRole a WRITE_ROLES
    · rw [update_patient_denied hA]; simp [denied]; exact ⟨_, rfl⟩
    · simp [update_patient_not_denied hA, hA]
  · intro hd
    cases hA : hasAllowedRole a WRITE_ROLES
    · rw [update_patient_denied hA]; exact ⟨rfl, rfl⟩
    · exact absurd hd (update_patient_not_denied hA)
  · rw [← hasAllowedRole_iff]
    cases hA : hasAllowedRole a DELETE_ROLES
    · rw [delete_patient_denied hA]; simp [denied]; exact ⟨_, rfl⟩
    · simp [delete_patient_not_denied hA, hA]
  · intro hd
    cases hA : hasAllowedRole a DELETE_ROLES
    · rw [delete_patient_denied hA]; exact ⟨rfl, rfl⟩
    · exact absurd hd (delete_patient_not_denied hA)
  · rw [← hasAllowedRole_iff]
    cases hA : hasAllowedRole a ["admin"]
    · rw [refresh_denied hA]; simp [denied]; exact ⟨_, rfl⟩
    · simp [refresh_not_denied hA, hA]
  · intro hd
    cases hA : hasAllowedRole a ["admin"]
    · rw [refresh_denied hA]; exact ⟨rfl, rfl⟩
    · exact absurd hd (refresh_not_denied hA)


theorem authorize_admits_iff_role_allowed_witness :
    ¬ denied (list_patients env0 "anonymized" (some doc0) db0) ∧
    denied (list_patients env0 "raw" (some doc0) db0) ∧
    (list_patients env0 "raw" (some doc0) db0).2.patients = db0.patients := by
  have h := authorize_admits_iff_role_allowed env0 (some doc0) db0 "N" "C" "D" 1
  have hdenraw : denied (list_patients env0 "raw" (some doc0) db0) :=
    ⟨"Role not permitted to view raw patients.", by decide⟩
  exact ⟨h.2.1.1.mpr ⟨"doctor", rfl, by decide⟩, hdenraw, (h.1.2 hdenraw).2⟩


/-- C9: any view string other than "raw" and "anonymized" raises ValueError
before the role check, leaving the whole database state - logs included -
untouched, for every caller. -/
theorem invalid_view_value_error (env : Env) (a : Option Identity)
    (view : String) (db : DB) (h1 : view ≠ "raw") (h2 : view ≠ "anonymized") :
    list_patients env view a db =
      (.error (.valueError "view must be either raw or anonymized"), db) := by
  simp [list_patients, h1, h2]

theorem invalid_view_value_error_witness :
    list_patients env0 "x" (some doc0) db0 =
      (.error (.valueError "view must be either raw or anonymized"), db0) :=
  invalid_view_value_error env0 (some doc0) "x" db0 (by decide) (by decide)

theorem refresh_patients_shape {env : Env} {a : Option Identity} {db : DB}
    (h : hasAllowedRole a ["admin"] = true) :
    (refresh_anonymized_fields env a db).2.patients =
      db.patients.map (refresh_row env db.now) := by
  obtain ⟨i, r, rfl, hr, hmem⟩ := hasAllowedRole_elim h
  cases hu : i.user_id with
  | some uid => rw [refresh_ok i uid r h hu hr]
  | none => simp [refresh_anonymized_fields, require_role_pos _ h, log_action_from, hu]

/-- C10: the re-anonymization sweep preserves every record's id, raw name,
raw contact and stored diagnosis, and neither inserts nor deletes records;
only the derived columns and last_updated may change. -/
theorem refresh_frame (env : Env) (a : Option Identity) (db : DB) :
    ((refresh_anonymized_fields env a db).2.patients.map
       (fun r => (r.patient_id, r.name, r.contact, r.diagnosis)) =
     db.patients.map (fun r => (r.patient_id, r.name, r.contact, r.diagnosis))) ∧
    (refresh_anonymized_fields env a db).2.patients.length = db.patients.length := by
  cases hA : hasAllowedRole a ["admin"] with
  | false => rw [refresh_denied hA]; exact ⟨rfl, rfl⟩
  | true =>
    rw [refresh_patients_shape hA, List.map_map]
    exact ⟨List.map_congr_left (fun r _ => rfl), by simp⟩

/-- C2 counterexample: an unauthenticated caller is denied, but no
unauthorized_access audit event is appended for it, so the claim that
every denial is recorded exactly once fails. -/
theorem unauthenticated_denial_unlogged :
    (delete_patient 1 none ⟨[], 1, [], 0⟩).1 =
      .error (.permissionError "Role not permitted to delete patients.") ∧
    (delete_patient 1 none ⟨[], 1, [], 0⟩).2.logs = [] := by
  decide

/-- C2 amended: every role-check failure is denied - an unauthenticated
caller always - and the denial appends exactly one unauthorized_access
audit event when the caller carries a user_id, and none when the caller
has no identity or no user_id. -/
theorem denial_audit_amended (env : Env) (a : Option Identity) (db : DB)
    (n c d : String) (pid : Nat) :
    (a = none →
      denied (list_patients env "raw" a db) ∧
      denied (list_patients env "anonymized" a db) ∧
      denied (create_patient env n c d a db) ∧
      denied (update_patient env pid n c d a db) ∧
      denied (delete_patient pid a db) ∧
      denied (refresh_anonymized_fields env a db)) ∧
    (hasAllowedRole a RAW_VIEW_ROLES = false →
      (list_patients env "raw" a db).2.logs =
        db.logs ++ denial_events a "view raw patients") ∧
    (hasAllowedRole a ANON_VIEW_ROLES = false →
      (list_patients env "anonymized" a db).2.logs =
        db.logs ++ denial_events a "view anonymized patients") ∧
    (hasAllowedRole a WRITE_ROLES = false →
      (create_patient env n c d a db).2.logs =
        db.logs ++ denial_events a "create patients" ∧
      (update_patient env pid n c d a db).2.logs =
        db.logs ++ denial_events a "update patients") ∧
    (hasAllowedRole a DELETE_ROLES = false →
      (delete_patient pid a db).2.logs =
        db.logs ++ denial_events a "delete patients") ∧
    (hasAllowedRole a ["admin"] = false →
      (refresh_anonymized_fields env a db).2.logs =
        db.logs ++ denial_events a "refresh anonymized data") ∧
    (∀ i uid act, a = some i → i.user_id = some uid →
      denial_events a act =
        [⟨uid, i.role.getD "unknown", "unauthorized_access",
          act ++ " not permitted"⟩]) ∧
    (∀ act, a = none → denial_events a act = []) ∧
    (∀ i act, a = some i → i.user_id = none → denial_events a act = []) := by
  refine ⟨?_, ?_, ?_, ?_, ?_, ?_, ?_, ?_, ?_⟩
  · rintro rfl
    refine ⟨?_, ?_, ?_, ?_, ?_, ?_⟩
    · rw [list_patients_raw_denied (by rfl)]; exact ⟨_, rfl⟩
    · rw [list_patients_anon_denied (by rfl)]; exact ⟨_, rfl⟩
    · rw [create_patient_denied (by rfl)]; exact ⟨_, rfl⟩
    · rw [update_patient_denied (by rfl)]; exact ⟨_, rfl⟩
    · rw [delete_patient_denied (by rfl)]; exact ⟨_, rfl⟩
    · rw [refresh_denied (by rfl)]; exact ⟨_, rfl⟩
  · intro hA; rw [list_patients_raw_denied hA]
  · intro hA; rw [list_patients_anon_denied hA]
  · intro hA
    rw [create_patient_denied hA, update_patient_denied hA]
    exact ⟨rfl, rfl⟩
  · intro hA; rw [delete_patient_denied hA]
  · intro hA; rw [refresh_denied hA]
  · rintro i uid act rfl hu
    simp [denial_events, log_security_event_with_uid hu]
  · rintro act rfl; rfl
  · rintro i act rfl hu
    simp [denial_events, log_security_event_no_uid hu]

theorem denial_audit_amended_witness :
    hasAllowedRole (some ⟨some 5, some "nurse"⟩) RAW_VIEW_ROLES = false ∧
    (list_patients env0 "raw" (some ⟨some 5, some "nurse"⟩) db0).2.logs =
      db0.logs ++ denial_events (some ⟨some 5, some "nurse"⟩) "view raw patients" ∧
    denial_events (some (⟨some 5, some "nurse"⟩ : Identity)) "view raw patients" =
      [⟨5, "nurse", "unauthorized_access", "view raw patients not permitted"⟩] := by
  have h := denial_audit_amended env0 (some ⟨some 5, some "nurse"⟩) db0 "N" "C" "D" 1
  refine ⟨by decide, h.2.1 (by decide), ?_⟩
  have hc := h.2.2.2.2.2.2.1 ⟨some 5, some "nurse"⟩ 5 "view raw patients" rfl rfl
  simpa using hc


/-- C4 counterexample: on an empty store, an authorized update and delete of
the missing id 1 both return success, not a NotFound failure. -/
theorem missing_id_silently_succeeds :
    get_patient env0 1 ⟨[], 1, [], 0⟩ = none ∧
    (update_patient env0 1 "N" "C" "D" (some adm0) ⟨[], 1, [], 0⟩).1 = .ok () ∧
    (delete_patient 1 (some adm0) ⟨[], 1, [], 0⟩).1 = .ok () := by
  decide

/-- C4 amended: for a missing id, get_patient returns the not-found signal
none, while update_patient and delete_patient succeed silently - the update
affects no row, the delete removes nothing, and both still append their
usual audit event; neither raises NotFound. -/
theorem missing_id_behavior (env : Env) (db : DB) (pid : Nat)
    (hmiss : ∀ row ∈ db.patients, row.patient_id ≠ pid)
    (i : Identity) (uid : Int) (ri : String)
    (hu : i.user_id = some uid) (hir : i.role = some ri) (hmem : ri ∈ WRITE_ROLES)
    (j : Identity) (ujd : Int)
    (hju : j.user_id = some ujd) (hjr : j.role = some "admin")
    (n c d : String) :
    get_patient env pid db = none ∧
    (update_patient env pid n c d (some i) db).1 = .ok () ∧
    (update_patient env pid n c d (some i) db).2.patients = db.patients ∧
    (update_patient env pid n c d (some i) db).2.logs =
      db.logs ++ [⟨uid, ri, "update_patient", "patient_id=" ++ toString pid⟩] ∧
    (delete_patient pid (some j) db).1 = .ok () ∧
    (delete_patient pid (some j) db).2.patients = db.patients ∧
    (delete_patient pid (some j) db).2.logs =
      db.logs ++ [⟨ujd, "admin", "delete_patient", "patient_id=" ++ toString pid⟩] := by
  have hAi : hasAllowedRole (some i) WRITE_ROLES = true := by
    simp [hasAllowedRole, hir]; exact hmem
  have hAj : hasAllowedRole (some j) DELETE_ROLES = true := by
    simp [hasAllowedRole, hjr, DELETE_ROLES]
  have hfind : db.patients.find? (fun r => r.patient_id == pid) = none :=
    List.find?_eq_none.mpr (fun x hx => by simp [hmiss x hx])
  refine ⟨by simp [get_patient, hfind], ?_, ?_, ?_, ?_, ?_, ?_⟩
  · rw [update_patient_ok i uid ri hAi hu hir]
  · rw [update_patient_ok i uid ri hAi hu hir]
    calc db.patients.map
          (update_row pid n c (encrypt_sensitive env d)
            (anonymized_fields env n c d) db.now)
        = db.patients.map id := by
          refine List.map_congr_left (fun x hx => ?_)
          simp [update_row, hmiss x hx]
      _ = db.patients := List.map_id _
  · rw [update_patient_ok i uid ri hAi hu hir]
  · rw [delete_patient_ok j ujd "admin" hAj hju hjr]
  · rw [delete_patient_ok j ujd "admin" hAj hju hjr]
    exact List.filter_eq_self.mpr (fun x hx => by simp [hmiss x hx])
  · rw [delete_patient_ok j ujd "admin" hAj hju hjr]

theorem missing_id_behavior_witness :
    (∀ row ∈ db1.patients, row.patient_id ≠ 2) ∧
    get_patient env0 2 db1 = none ∧
    (update_patient env0 2 "N" "C" "D" (some rec0) db1).2.patients = db1.patients ∧
    (delete_patient 2 (some adm0) db1).1 = .ok () := by
  have h := missing_id_behavior env0 db1 2 (by decide) rec0 3 "receptionist"
    rfl rfl (by decide) adm0 1 rfl rfl "N" "C" "D"
  exact ⟨by decide, h.1, h.2.2.1, h.2.2.2.2.1⟩

/-- C6: with no Fernet object configured both codec operations are the
identity on every string; with one configured whose decrypt inverts its
encrypt - the Fernet library contract - the two compose to the identity. -/
theorem codec_identity_and_roundtrip (env : Env) (p : String) :
    (env.fernet = none → encrypt_sensitive env p = p ∧ decrypt_sensitive env p = p) ∧
    (∀ f, env.fernet = some f → (∀ q, f.dec (f.enc q) = q) →
      decrypt_sensitive env (encrypt_sensitive env p) = p) := by
  constructor
  · intro h
    simp [encrypt_sensitive, decrypt_sensitive, h]
  · intro f hf hrt
    simp [encrypt_sensitive, decrypt_sensitive, hf, hrt]

theorem codec_identity_and_roundtrip_witness :
    env0.fernet = none ∧ encrypt_sensitive env0 "flu" = "flu" ∧
    env1.fernet = some consFernet ∧
    decrypt_sensitive env1 (encrypt_sensitive env1 "flu") = "flu" := by
  refine ⟨rfl, ((codec_identity_and_roundtrip env0 "flu").1 rfl).1, rfl, ?_⟩
  exact (codec_identity_and_roundtrip env1 "flu").2 consFernet rfl
    (fun q => by cases q; rfl)

/-- C7: the three masking functions are total Lean functions of their
string argument; mask_name and mask_diagnosis produce the prefixed
zero-padded residues of the hash, and mask_contact appends the last four
digit characters of its argument, the literal "0000" when there are no
digits, and fewer than four characters when there are one to three. -/
theorem masking_functions_spec (h : String → Int) (s : String) :
    mask_name h s = "ANON_" ++ zfill 4 (toString ((h s).natAbs % 10000)) ∧
    mask_diagnosis h s = "MASKED_" ++ zfill 6 (toString ((h s).natAbs % 1000000)) ∧
    mask_contact "555-1234" = "XXX-XXX-1234" ∧
    mask_contact "abc" = "XXX-XXX-0000" ∧
    mask_contact "" = "XXX-XXX-0000" ∧
    (s.data.filter Char.isDigit = [] → mask_contact s = "XXX-XXX-0000") ∧
    (∀ ds, ds = s.data.filter Char.isDigit → ds ≠ [] →
      mask_contact s = "XXX-XXX-" ++ String.mk ((ds.reverse.take 4).reverse) ∧
      (ds.length < 4 → (mask_contact s).length = 8 + ds.length)) := by
  refine ⟨rfl, rfl, by decide, by decide, by decide, ?_, ?_⟩
  · intro hds
    have h0 : String.mk ([] : List Char) = "" := rfl
    calc mask_contact s = "XXX-XXX-" ++ "0000" := by simp [mask_contact, hds, h0]
      _ = "XXX-XXX-0000" := by decide
  · rintro ds hds hne
    have hds2 : ds.drop (ds.length - 4) = (ds.reverse.take 4).reverse := by
      rw [List.reverse_take]; simp
    have hnil : ds.drop (ds.length - 4) ≠ [] := by
      rw [Ne, List.drop_eq_nil_iff]
      have : 0 < ds.length := List.length_pos.mpr hne
      omega
    have hstr : String.mk (ds.drop (ds.length - 4)) ≠ "" :=
      fun hcon => hnil (congrArg String.data hcon)
    have hmc : mask_contact s = "XXX-XXX-" ++ String.mk (ds.drop (ds.length - 4)) := by
      subst hds
      simp [mask_contact, hstr]
    refine ⟨by rw [hmc, hds2], ?_⟩
    intro hlt
    rw [hmc, String.length_append]
    have hlen : (String.mk (ds.drop (ds.length - 4))).length = ds.length := by
      have hd0 : ds.length - 4 = 0 := by omega
      simp only [hd0, List.drop_zero]
      rfl
    rw [hlen]
    rfl


theorem masking_functions_spec_witness :
    mask_name (fun _ => 7) "x" = "ANON_" ++ zfill 4 (toString ((7 : Int).natAbs % 10000)) ∧
    mask_contact "555-1234" = "XXX-XXX-1234" ∧
    "a1b2".data.filter Char.isDigit ≠ [] ∧
    mask_contact "a1b2" =
      "XXX-XXX-" ++ String.mk ((("a1b2".data.filter Char.isDigit).reverse.take 4).reverse) ∧
    ("a1b2".data.filter Char.isDigit).length < 4 ∧
    (mask_contact "a1b2").length = 8 + ("a1b2".data.filter Char.isDigit).length := by
  have h := masking_functions_spec (fun _ => (7 : Int)) "a1b2"
  have hm := masking_functions_spec (fun _ => (7 : Int)) "x"
  have hx := h.2.2.2.2.2.2 ("a1b2".data.filter Char.isDigit) rfl (by decide)
  exact ⟨hm.1, h.2.2.1, by decide, hx.1, by decide, hx.2 (by decide)⟩


/-- C8: the re-anonymization sweep is admin-only; run twice on an unchanged
data set the derived triples after the second run equal those after the
first, and each invocation appends exactly one refresh_anonymization audit
event, independent of the number of records rewritten. -/
theorem refresh_idempotent_single_audit (env : Env) (i : Identity) (uid : Int)
    (hu : i.user_id = some uid) (hr : i.role = some "admin") (db : DB) :
    (∀ j : Identity, j.role ≠ some "admin" →
      denied (refresh_anonymized_fields env (some j) db)) ∧
    (refresh_anonymized_fields env (some i) db).1 = .ok () ∧
    ((refresh_anonymized_fields env (some i)
        (refresh_anonymized_fields env (some i) db).2).2.patients.map
      (fun r => (r.anonymized_name, r.anonymized_contact, r.diagnosis_masked)) =
     (refresh_anonymized_fields env (some i) db).2.patients.map
      (fun r => (r.anonymized_name, r.anonymized_contact, r.diagnosis_masked))) ∧
    ((refresh_anonymized_fields env (some i) db).2.logs =
      db.logs ++ [⟨uid, "admin", "refresh_anonymization",
        "Recomputed anonymized fields for all patients"⟩]) ∧
    ((refresh_anonymized_fields env (some i)
        (refresh_anonymized_fields env (some i) db).2).2.logs =
      (refresh_anonymized_fields env (some i) db).2.logs ++
        [⟨uid, "admin", "refresh_anonymization",
          "Recomputed anonymized fields for all patients"⟩]) := by
  have hA : hasAllowedRole (some i) ["admin"] = true := by
    simp [hasAllowedRole, hr]
  refine ⟨?_, ?_, ?_, ?_, ?_⟩
  · intro j hj
    have hAj : hasAllowedRole (some j) ["admin"] = false := by
      cases hjr : j.role with
      | none => simp [hasAllowedRole, hjr]
      | some r =>
        have hne : r ≠ "admin" := fun hcon => hj (by rw [hjr, hcon])
        simp [hasAllowedRole, hjr, hne]
    rw [refresh_denied hAj]
    exact ⟨_, rfl⟩
  · simp [refresh_ok i uid "admin" hA hu hr]
  · simp only [refresh_ok i uid "admin" hA hu hr, List.map_map]
    exact List.map_congr_left (fun r _ => rfl)
  · simp [refresh_ok i uid "admin" hA hu hr]
  · simp [refresh_ok i uid "admin" hA hu hr]

theorem refresh_idempotent_single_audit_witness :
    denied (refresh_anonymized_fields env0 (some doc0) db1) ∧
    (refresh_anonymized_fields env0 (some adm0) db1).1 = .ok () ∧
    (refresh_anonymized_fields env0 (some adm0) db1).2.logs =
      db1.logs ++ [⟨1, "admin", "refresh_anonymization",
        "Recomputed anonymized fields for all patients"⟩] := by
  have h := refresh_idempotent_single_audit env0 adm0 1 rfl rfl db1
  exact ⟨h.1 doc0 (by decide), h.2.1, h.2.2.2.1⟩


theorem by_date_desc_trans : ∀ (a b c : PatientRow),
    by_date_desc a b = true → by_date_desc b c = true → by_date_desc a c = true := by
  intro a b c h1 h2
  simp [by_date_desc] at h1 h2 ⊢
  omega

theorem by_date_desc_total : ∀ (a b : PatientRow),
    (by_date_desc a b || by_date_desc b a) = true := by
  intro a b
  simp [by_date_desc]
  omega

theorem scan_patients_sorted (db : DB) :
    (scan_patients db).Pairwise (fun a b => b.date_added ≤ a.date_added) := by
  have hs := List.sorted_mergeSort by_date_desc_trans by_date_desc_total db.patients
  refine hs.imp ?_
  intro a b hab
  simpa [by_date_desc] using hab

theorem scan_patients_perm (db : DB) : (scan_patients db).Perm db.patients :=
  List.mergeSort_perm _ _

/-- C5: for an admin or doctor caller the anonymized listing returns one
five-field AnonView object (and nothing else - the AnonView type has no raw
field) per stored record; both listings come back ordered by creation
timestamp descending; a doctor requesting the raw view is denied. -/
theorem list_patients_views (env : Env) (db : DB) (i : Identity) :
    (∀ r, i.role = some r → r ∈ ANON_VIEW_ROLES →
      ∃ l, (list_patients env "anonymized" (some i) db).1 = .ok (.anon l) ∧
        l.Perm (db.patients.map (fun row => to_anon_view (format_patient_row env row))) ∧
        l.Pairwise (fun a b => b.date_added ≤ a.date_added)) ∧
    (∀ r, i.role = some r → r ∈ RAW_VIEW_ROLES →
      ∃ l, (list_patients env "raw" (some i) db).1 = .ok (.raw l) ∧
        l.Pairwise (fun a b : PatientRow => b.date_added ≤ a.date_added)) ∧
    (i.role = some "doctor" →
      (list_patients env "raw" (some i) db).1 =
        .error (perm_denial "view raw patients")) := by
  refine ⟨?_, ?_, ?_⟩
  · intro r hr hmem
    have hA : hasAllowedRole (some i) ANON_VIEW_ROLES = true := by
      simp [hasAllowedRole, hr]; exact hmem
    refine ⟨((scan_patients db).map (format_patient_row env)).map to_anon_view,
      by rw [list_patients_anon_ok hA], ?_, ?_⟩
    · rw [List.map_map]
      exact (scan_patients_perm db).map _
    · rw [List.map_map]
      rw [List.pairwise_map]
      exact scan_patients_sorted db
  · intro r hr hmem
    have hA : hasAllowedRole (some i) RAW_VIEW_ROLES = true := by
      simp [hasAllowedRole, hr]; exact hmem
    refine ⟨(scan_patients db).map (format_patient_row env),
      by rw [list_patients_raw_ok hA], ?_⟩
    rw [List.pairwise_map]
    exact scan_patients_sorted db
  · intro hr
    have hA : hasAllowedRole (some i) RAW_VIEW_ROLES = false := by
      simp [hasAllowedRole, hr, RAW_VIEW_ROLES]
    rw [list_patients_raw_denied hA]

theorem list_patients_views_witness :
    (∃ l, (list_patients env0 "anonymized" (some doc0) db1).1 = .ok (.anon l) ∧
      l.Pairwise (fun a b => b.date_added ≤ a.date_added)) ∧
    (list_patients env0 "raw" (some doc0) db1).1 =
      .error (perm_denial "view raw patients") := by
  have h := list_patients_views env0 db1 doc0
  obtain ⟨l, h1, _, h3⟩ := h.1 "doctor" rfl (by decide)
  exact ⟨⟨l, h1, h3⟩, h.2.2 rfl⟩


theorem update_row_id (pid : Nat) (n c ed : String) (f : AnonFields) (t : Nat)
    (r : PatientRow) : (update_row pid n c ed f t r).patient_id = r.patient_id := by
  unfold update_row
  split <;> rfl

/-- C3: after a successful create or update, the stored derived triple is
exactly the Masking Engine applied to the raw values supplied in that same
write, and get_patient returns the supplied raw name and contact with the
diagnosis decrypted back to the supplied plaintext. -/
theorem write_then_get_roundtrip (env : Env)
    (hrt : ∀ p, decrypt_sensitive env (encrypt_sensitive env p) = p)
    (i : Identity) (uid : Int) (r : String)
    (hu : i.user_id = some uid) (hr : i.role = some r) (hmem : r ∈ WRITE_ROLES)
    (db : DB) (n c d : String) :
    ((∀ row ∈ db.patients, row.patient_id < db.next_id) →
      (create_patient env n c d (some i) db).1 = .ok db.next_id ∧
      get_patient env db.next_id (create_patient env n c d (some i) db).2 =
        some ⟨db.next_id, n, c, d, mask_name env.hash n, mask_contact c,
              mask_diagnosis env.hash d, db.now, db.now⟩) ∧
    (∀ pid, (∃ row ∈ db.patients, row.patient_id = pid) →
      (update_patient env pid n c d (some i) db).1 = .ok () ∧
      ∃ t, get_patient env pid (update_patient env pid n c d (some i) db).2 =
        some ⟨pid, n, c, d, mask_name env.hash n, mask_contact c,
              mask_diagnosis env.hash d, t, db.now⟩) := by
  have hA : hasAllowedRole (some i) WRITE_ROLES = true := by
    simp [hasAllowedRole, hr]; exact hmem
  constructor
  · intro hwf
    rw [create_patient_ok i uid r hA hu hr]
    refine ⟨rfl, ?_⟩
    have hnone : db.patients.find? (fun x => x.patient_id == db.next_id) = none :=
      List.find?_eq_none.mpr (fun x hx => by
        have := hwf x hx
        simp
        omega)
    rw [get_patient]
    rw [List.find?_append, hnone, Option.none_or]
    simp [format_patient_row, hrt d]
  · intro pid hin
    rw [update_patient_ok i uid r hA hu hr]
    refine ⟨rfl, ?_⟩
    obtain ⟨row0, hmem0, hid0⟩ := hin
    have hfind : ∃ x, db.patients.find? (fun x => x.patient_id == pid) = some x := by
      rw [← Option.isSome_iff_exists, List.find?_isSome]
      exact ⟨row0, hmem0, by simp [hid0]⟩
    obtain ⟨x0, hx0⟩ := hfind
    have hx0id : x0.patient_id = pid := by
      have := List.find?_some hx0
      simpa using this
    have hcomp : (fun x => (update_row pid n c (encrypt_sensitive env d)
        (anonymized_fields env n c d) db.now x).patient_id == pid) =
        (fun x => x.patient_id == pid) := by
      funext x
      rw [update_row_id]
    refine ⟨x0.date_added, ?_⟩
    rw [get_patient]
    rw [List.find?_map]
    rw [show ((fun x => x.patient_id == pid) ∘
        update_row pid n c (encrypt_sensitive env d)
          (anonymized_fields env n c d) db.now) =
        (fun x => x.patient_id == pid) from hcomp]
    rw [hx0]
    have hupd : update_row pid n c (encrypt_sensitive env d)
        (anonymized_fields env n c d) db.now x0 =
        ⟨pid, n, c, encrypt_sensitive env d, mask_name env.hash n, mask_contact c,
         mask_diagnosis env.hash d, x0.date_added, db.now⟩ := by
      unfold update_row
      rw [if_pos (by simp [hx0id])]
      simp [anonymized_fields, hx0id]
    simp [hupd, format_patient_row, hrt d]

theorem write_then_get_roundtrip_witness :
    (∀ row ∈ db0.patients, row.patient_id < db0.next_id) ∧
    (create_patient env0 "Jane Doe" "555-0100" "flu" (some adm0) db0).1 =
      .ok db0.next_id ∧
    get_patient env0 db0.next_id
        (create_patient env0 "Jane Doe" "555-0100" "flu" (some adm0) db0).2 =
      some ⟨db0.next_id, "Jane Doe", "555-0100", "flu",
            mask_name env0.hash "Jane Doe", mask_contact "555-0100",
            mask_diagnosis env0.hash "flu", db0.now, db0.now⟩ ∧
    (∃ row ∈ db1.patients, row.patient_id = 1) ∧
    (∃ t, get_patient env0 1
        (update_patient env0 1 "Ann" "042" "cold" (some adm0) db1).2 =
      some ⟨1, "Ann", "042", "cold", mask_name env0.hash "Ann",
            mask_contact "042", mask_diagnosis env0.hash "cold", t, db1.now⟩) := by
  have h := write_then_get_roundtrip env0 (fun p => rfl) adm0 1 "admin"
    rfl rfl (by decide) db0 "Jane Doe" "555-0100" "flu"
  have h2 := write_then_get_roundtrip env0 (fun p => rfl) adm0 1 "admin"
    rfl rfl (by decide) db1 "Ann" "042" "cold"
  have hcr := h.1 (by simp [db0])
  exact ⟨by simp [db0], hcr.1, hcr.2, by decide, (h2.2 1 (by decide)).2⟩

end Hospital
